import Mathlib

/-
Shallow embedding of the mag music-library store (src/db.rs) and its
condition parser (src/cli.rs).

The store is modelled at the row level: each SQLite table of the schema
created in connect() becomes a list of rows, and each public operation of
db.rs becomes a function on that state.  SQLite specifics that the
embedding fixes:

* foreign_keys are OFF by default in SQLite and the code never enables
  them, so DELETE statements are never blocked by referencing rows;
* INTEGER PRIMARY KEY assigns max existing id + 1 to a fresh row;
* each conn.execute call is its own autocommitted statement (db.rs opens
  no transaction in the mutation functions; only the schema batch in
  connect() is wrapped in BEGIN/COMMIT, modelled by the schemaExists flag);
* the value parameter of query_songs is bound as text, but comparison
  against the INTEGER-affinity column song_tags.value applies numeric
  affinity, so it is modelled as a numeric comparison;
* ORDER BY path under the default BINARY collation is bytewise UTF-8
  order, which coincides with lexicographic code-point order on the
  string, i.e. with the LinearOrder on String.

Datetime columns of contexts/play_events (no logic reads them) and the
contexts table itself (never touched by any operation in scope) are not
modelled.  Rust error values are modelled by small error types named
after the error taxonomy.
-/

namespace Mag

/-- Row of the songs table: id INTEGER PRIMARY KEY, path TEXT NOT NULL UNIQUE. -/
structure SongRow where
  id : Nat
  path : String
  deriving DecidableEq, Repr

/-- Row of the tags table: id INTEGER PRIMARY KEY, name TEXT NOT NULL UNIQUE. -/
structure TagRow where
  id : Nat
  name : String
  deriving DecidableEq, Repr

/-- Row of the song_tags table: PRIMARY KEY (song_id, tag_id), value INTEGER
CHECK(value BETWEEN 0 AND 9). -/
structure SongTagRow where
  songId : Nat
  tagId : Nat
  value : Nat
  deriving DecidableEq, Repr

/-- Row of the play_events table (datetime and skipped fields carry no logic
in scope and are omitted). -/
structure PlayEventRow where
  id : Nat
  songId : Nat
  contextId : Nat
  deriving DecidableEq, Repr

/-- Row of the feedback table: feedback INTEGER CHECK(feedback IN (-1, 1)). -/
structure FeedbackRow where
  id : Nat
  playEventId : Nat
  tagId : Nat
  feedback : Int
  deriving DecidableEq, Repr

/-- The persistent store: one list per table, plus a flag recording whether
the schema-creation batch of connect() has run. -/
structure DB where
  schemaExists : Bool
  songs : List SongRow
  tags : List TagRow
  songTags : List SongTagRow
  playEvents : List PlayEventRow
  feedback : List FeedbackRow
  deriving DecidableEq, Repr

/-- Error type for the mutation layer (rusqlite errors surfaced by db.rs). -/
inductive DbErr where
  | notFound
  | constraintViolation
  deriving DecidableEq, Repr

/-- Error type for query_songs (rusqlite InvalidParameterName on a bad
operator). -/
inductive QueryErr where
  | invalidOperator (op : String)
  deriving DecidableEq, Repr

/-- connect() opens the store and runs the CREATE TABLE IF NOT EXISTS batch
inside a single BEGIN/COMMIT transaction; at the row level its only effect
is that afterwards the schema exists. -/
def connect (db : DB) : DB :=
  { db with schemaExists := true }

/-- SQLite INTEGER PRIMARY KEY id allocation: one more than the largest id. -/
def nextId (ids : List Nat) : Nat :=
  ids.foldr Nat.max 0 + 1

/-- add_song: INSERT OR IGNORE INTO songs (path) VALUES (?1); the UNIQUE
constraint on path turns a re-add into a no-op. -/
def add_song (db : DB) (p : String) : Except DbErr Unit × DB :=
  let c := connect db
  if c.songs.any (fun r => r.path == p) then
    (Except.ok (), c)
  else
    (Except.ok (), { c with songs := c.songs ++ [{ id := nextId (c.songs.map SongRow.id), path := p }] })

/-- add_tag: INSERT OR IGNORE INTO tags (name) VALUES (?1). -/
def add_tag (db : DB) (n : String) : Except DbErr Unit × DB :=
  let c := connect db
  if c.tags.any (fun r => r.name == n) then
    (Except.ok (), c)
  else
    (Except.ok (), { c with tags := c.tags ++ [{ id := nextId (c.tags.map TagRow.id), name := n }] })

/-- Statement: DELETE FROM song_tags WHERE song_id = ?1. -/
def delSongTagsBySong (sid : Nat) (db : DB) : DB :=
  { db with songTags := db.songTags.filter (fun st => !(st.songId == sid)) }

/-- Statement: DELETE FROM play_events WHERE song_id = ?1. -/
def delPlayEventsBySong (sid : Nat) (db : DB) : DB :=
  { db with playEvents := db.playEvents.filter (fun pe => !(pe.songId == sid)) }

/-- Statement: DELETE FROM feedback WHERE play_event_id IN
(SELECT id FROM play_events WHERE song_id = ?1); the subselect runs against
the state the statement executes in. -/
def delFeedbackBySongPlayEvents (sid : Nat) (db : DB) : DB :=
  let keep := fun f => !(db.playEvents.any (fun pe => pe.id == f.playEventId && pe.songId == sid))
  { db with feedback := db.feedback.filter keep }

/-- Statement: DELETE FROM songs WHERE id = ?1. -/
def delSongRow (sid : Nat) (db : DB) : DB :=
  { db with songs := db.songs.filter (fun r => !(r.id == sid)) }

/-- remove_song, in the statement order of db.rs: look up the id, then
delete song_tags, then play_events, then feedback via the play_events
subselect, then the song row.  Each statement autocommits (db.rs opens no
transaction here). -/
def remove_song (db : DB) (p : String) : Except DbErr Unit × DB :=
  let c := connect db
  match c.songs.find? (fun r => r.path == p) with
  | none => (Except.ok (), c)
  | some s =>
    (Except.ok (),
      delSongRow s.id (delFeedbackBySongPlayEvents s.id (delPlayEventsBySong s.id (delSongTagsBySong s.id c))))

/-- Observable store states along remove_song: after connect, then after
each of the four autocommitted DELETE statements. -/
def remove_song_states (db : DB) (p : String) : List DB :=
  let c := connect db
  match c.songs.find? (fun r => r.path == p) with
  | none => [c]
  | some s =>
    let d1 := delSongTagsBySong s.id c
    let d2 := delPlayEventsBySong s.id d1
    let d3 := delFeedbackBySongPlayEvents s.id d2
    let d4 := delSongRow s.id d3
    [c, d1, d2, d3, d4]

/-- Statement: DELETE FROM song_tags WHERE tag_id = ?1. -/
def delSongTagsByTag (tid : Nat) (db : DB) : DB :=
  { db with songTags := db.songTags.filter (fun st => !(st.tagId == tid)) }

/-- Statement: DELETE FROM feedback WHERE tag_id = ?1. -/
def delFeedbackByTag (tid : Nat) (db : DB) : DB :=
  { db with feedback := db.feedback.filter (fun f => !(f.tagId == tid)) }

/-- Statement: DELETE FROM tags WHERE id = ?1. -/
def delTagRow (tid : Nat) (db : DB) : DB :=
  { db with tags := db.tags.filter (fun r => !(r.id == tid)) }

/-- remove_tag, in the statement order of db.rs: song_tags, then feedback by
tag_id, then the tag row; each statement autocommits. -/
def remove_tag (db : DB) (n : String) : Except DbErr Unit × DB :=
  let c := connect db
  match c.tags.find? (fun r => r.name == n) with
  | none => (Except.ok (), c)
  | some tg =>
    (Except.ok (), delTagRow tg.id (delFeedbackByTag tg.id (delSongTagsByTag tg.id c)))

/-- Observable store states along remove_tag: after connect, then after each
of the three autocommitted DELETE statements. -/
def remove_tag_states (db : DB) (n : String) : List DB :=
  let c := connect db
  match c.tags.find? (fun r => r.name == n) with
  | none => [c]
  | some tg =>
    let d1 := delSongTagsByTag tg.id c
    let d2 := delFeedbackByTag tg.id d1
    let d3 := delTagRow tg.id d2
    [c, d1, d2, d3]

/-- Composite-key test for the song_tags PRIMARY KEY (song_id, tag_id). -/
def matchKey (sid tid : Nat) (st : SongTagRow) : Bool :=
  st.songId == sid && st.tagId == tid

/-- tag_song: look up the song by path and the tag by name (query_row fails
with QueryReturnedNoRows when absent), then INSERT ... ON CONFLICT(song_id,
tag_id) DO UPDATE SET value = excluded.value.  The CHECK(value BETWEEN 0
AND 9) schema constraint rejects the statement for a value outside the
bound, leaving the rows untouched. -/
def tag_song (db : DB) (p t : String) (v : Nat) : Except DbErr Unit × DB :=
  let c := connect db
  match c.songs.find? (fun r => r.path == p) with
  | none => (Except.error DbErr.notFound, c)
  | some s =>
    match c.tags.find? (fun r => r.name == t) with
    | none => (Except.error DbErr.notFound, c)
    | some tg =>
      if v ≤ 9 then
        if c.songTags.any (matchKey s.id tg.id) then
          let upd := fun st => if matchKey s.id tg.id st then { st with value := v } else st
          (Except.ok (), { c with songTags := c.songTags.map upd })
        else
          (Except.ok (), { c with songTags := c.songTags ++ [{ songId := s.id, tagId := tg.id, value := v }] })
      else
        (Except.error DbErr.constraintViolation, c)

/-- A query condition, the (tag_name, value, operator) triple of db.rs. -/
structure Cond where
  tagName : String
  value : Nat
  operator : String
  deriving DecidableEq, Repr

/-- The operator allow-list checked by query_songs before interpolation. -/
def validOperators : List String :=
  ["=", ">", "<", ">=", "<=", "!="]

/-- Meaning of an interpolated comparison operator on song_tags.value
(numeric affinity applies to the bound text parameter). -/
def opApply (op : String) (a b : Nat) : Bool :=
  if op = "=" then a == b
  else if op = ">" then decide (b < a)
  else if op = "<" then decide (a < b)
  else if op = ">=" then decide (b ≤ a)
  else if op = "<=" then decide (a ≤ b)
  else if op = "!=" then a != b
  else false

/-- The rows produced for one aliased join pair of query_songs for a fixed
outer song id: JOIN song_tags st ON s.id = st.song_id JOIN tags t ON
st.tag_id = t.id. -/
def onPairs (db : DB) (sid : Nat) : List (SongTagRow × TagRow) :=
  (db.songTags.filter (fun st => st.songId == sid)).flatMap
    (fun st => (db.tags.filter (fun t => st.tagId == t.id)).map (fun t => (st, t)))

/-- One WHERE conjunct of query_songs on its own join pair:
(t{i}.name = ? AND st{i}.value OP ?). -/
def condSatPair (c : Cond) (pr : SongTagRow × TagRow) : Bool :=
  pr.2.name == c.tagName && opApply c.operator pr.1.value c.value

/-- The tuples of the N-fold join of query_songs for a fixed outer song id:
one aliased pair per condition, pairs never shared between conditions. -/
def tuplesFor (db : DB) (sid : Nat) : List Cond → List (List (SongTagRow × TagRow))
  | [] => [[]]
  | _ :: cs => (onPairs db sid).flatMap (fun pr => (tuplesFor db sid cs).map (fun tp => pr :: tp))

/-- The WHERE clause of query_songs: the conjunction of the per-condition
conjuncts, the i-th conjunct reading only the i-th aliased pair. -/
def whereSat : List Cond → List (SongTagRow × TagRow) → Bool
  | [], [] => true
  | c :: cs, pr :: tps => condSatPair c pr && whereSat cs tps
  | _, _ => false

/-- The rows of the compiled SELECT before DISTINCT and ORDER BY: one copy
of the song row per join tuple satisfying the WHERE clause. -/
def rawResult (db : DB) (conds : List Cond) : List SongRow :=
  db.songs.flatMap (fun s => ((tuplesFor db s.id conds).filter (whereSat conds)).map (fun _ => s))

/-- ORDER BY s.path under the BINARY collation. -/
def pathRel (a b : SongRow) : Prop :=
  a.path ≤ b.path

instance : DecidableRel pathRel :=
  fun a b => inferInstanceAs (Decidable (a.path ≤ b.path))

instance : IsTotal SongRow pathRel :=
  ⟨fun a b => le_total a.path b.path⟩

instance : IsTrans SongRow pathRel :=
  ⟨fun _ _ _ h1 h2 => le_trans h1 h2⟩

/-- Sorting of the result rows for ORDER BY s.path. -/
def sortByPath (l : List SongRow) : List SongRow :=
  l.insertionSort pathRel

/-- query_songs of db.rs: empty condition list returns an empty result
before touching the store; otherwise connect, validate every operator
against the allow-list (first failure aborts with InvalidParameterName
before the statement is prepared), then run the compiled join query:
SELECT DISTINCT s.id, s.path FROM songs s JOIN ... WHERE ... ORDER BY
s.path. -/
def query_songs (db : DB) (conds : List Cond) : Except QueryErr (List SongRow) × DB :=
  if conds.isEmpty then
    (Except.ok [], db)
  else
    let c := connect db
    match conds.find? (fun cd => !(validOperators.contains cd.operator)) with
    | some cd => (Except.error (QueryErr.invalidOperator cd.operator), c)
    | none => (Except.ok (sortByPath (rawResult c conds).dedup), c)

/-- Modelled from the spec (section 4.3, the target semantics the claims
compare the compiled query against): the song has a SongTag row for the
condition tag whose value satisfies the comparison. -/
def songHasMatchingTag (db : DB) (sid : Nat) (c : Cond) : Prop :=
  ∃ st ∈ db.songTags, st.songId = sid ∧
    ∃ t ∈ db.tags, st.tagId = t.id ∧ t.name = c.tagName ∧ opApply c.operator st.value c.value = true

/-
Condition-string parsing, from parse_tag_condition in src/cli.rs.  Strings
are modelled as lists of characters; the operator patterns are ASCII, so
the byte positions Rust str::find reports coincide with character
positions, and slicing at them is slicing the character list.
-/

/-- Parse error type for parse_tag_condition; cli.rs reports these as
message strings, named in the spec as EmptyTagName, ValueOutOfRange,
NonNumericValue and NoOperatorFound. -/
inductive ParseErr where
  | emptyTagName
  | valueOutOfRange
  | nonNumericValue
  | noOperatorFound
  deriving DecidableEq, Repr

/-- The operator patterns in the priority order of cli.rs, two-character
operators before their one-character prefixes. -/
def operators : List (List Char) :=
  [['>', '='], ['<', '='], ['!', '='], ['>'], ['<'], ['=']]

/-- Position search underlying Rust str::find: the index of the first
occurrence of the pattern, if any. -/
def firstOccurAux (pat : List Char) : List Char → Nat → Option Nat
  | [], i => if pat.isPrefixOf ([] : List Char) then some i else none
  | c :: rest, i => if pat.isPrefixOf (c :: rest) then some i else firstOccurAux pat rest (i + 1)

/-- Rust condition.find(op): position of the first occurrence of op. -/
def strFind (s pat : List Char) : Option Nat :=
  firstOccurAux pat s 0

/-- Rust str::trim on the slices (the claims involve only ASCII
whitespace, which Char.isWhitespace covers). -/
def trim (s : List Char) : List Char :=
  ((s.dropWhile Char.isWhitespace).reverse.dropWhile Char.isWhitespace).reverse

/-- Rust value_str.parse::<u8>(): optional leading plus sign, at least one
ASCII digit, nothing else, and the value must fit in a u8. -/
def parseU8 (s : List Char) : Option Nat :=
  let digits := match s with
    | '+' :: rest => rest
    | _ => s
  if digits.isEmpty then none
  else if digits.all Char.isDigit then
    let n := digits.foldl (fun acc c => acc * 10 + (c.toNat - 48)) 0
    if n ≤ 255 then some n else none
  else none

/-- The tail of the loop body of parse_tag_condition once condition.find(op)
has returned position pos: split at the operator, trim both sides, demand a
non-empty tag name and a u8 value of at most 9. -/
def processAt (cond op : List Char) (pos : Nat) : Except ParseErr (List Char × Nat × List Char) :=
  let tag_name := trim (cond.take pos)
  let value_str := trim (cond.drop (pos + op.length))
  if tag_name.isEmpty then Except.error ParseErr.emptyTagName
  else
    match parseU8 value_str with
    | some v =>
      if v ≤ 9 then Except.ok (tag_name, v, op)
      else Except.error ParseErr.valueOutOfRange
    | none => Except.error ParseErr.nonNumericValue

/-- The body of the for-loop of parse_tag_condition for one operator
pattern: none when the operator does not occur in the condition, otherwise
the Ok or Err value the loop returns for it. -/
def tryOp (cond op : List Char) : Option (Except ParseErr (List Char × Nat × List Char)) :=
  match strFind cond op with
  | none => none
  | some pos => some (processAt cond op pos)

/-- The for-loop of parse_tag_condition: the first operator pattern that
occurs anywhere in the condition decides the outcome. -/
def parseLoop (cond : List Char) : List (List Char) → Except ParseErr (List Char × Nat × List Char)
  | [] => Except.error ParseErr.noOperatorFound
  | op :: rest =>
    match tryOp cond op with
    | some r => r
    | none => parseLoop cond rest

/-- parse_tag_condition of cli.rs. -/
def parse_tag_condition (cond : List Char) : Except ParseErr (List Char × Nat × List Char) :=
  parseLoop cond operators

/-
Concrete example stores used by the closed theorems and the witnesses.
-/

/-- Path of the example song. -/
def exPathA : String := "a"

/-- Name of the example tag. -/
def exTagT : String := "t"

/-- The example song row. -/
def exSongRowA : SongRow := { id := 1, path := exPathA }

/-- The example tag row. -/
def exTagRowT : TagRow := { id := 1, name := exTagT }

/-- A store with one song, one tag, one song_tags row, one play event of
the song, and one feedback row referencing that play event. -/
def exDb1 : DB :=
  { schemaExists := true
    songs := [exSongRowA]
    tags := [exTagRowT]
    songTags := [{ songId := 1, tagId := 1, value := 5 }]
    playEvents := [{ id := 1, songId := 1, contextId := 1 }]
    feedback := [{ id := 1, playEventId := 1, tagId := 1, feedback := 1 }] }

/-- The example song of the range-query stores. -/
def exSongA : SongRow := { id := 1, path := "s.mp3" }

/-- A store whose single song has energy value 5. -/
def exDbA : DB :=
  { schemaExists := true
    songs := [exSongA]
    tags := [{ id := 1, name := "energy" }]
    songTags := [{ songId := 1, tagId := 1, value := 5 }]
    playEvents := []
    feedback := [] }

/-- A store whose single song has energy value 8. -/
def exDbB : DB :=
  { exDbA with songTags := [{ songId := 1, tagId := 1, value := 8 }] }

/-- The same-tag range conditions energy at least 3 and energy at most 7. -/
def exCondsRange : List Cond :=
  [{ tagName := "energy", value := 3, operator := ">=" },
   { tagName := "energy", value := 7, operator := "<=" }]

/-- A two-song store for the query-semantics witness. -/
def exDb3 : DB :=
  { schemaExists := true
    songs := [{ id := 1, path := "b.mp3" }, { id := 2, path := "a.mp3" }]
    tags := [{ id := 1, name := "energy" }]
    songTags := [{ songId := 1, tagId := 1, value := 8 }, { songId := 2, tagId := 1, value := 2 }]
    playEvents := []
    feedback := [] }

/-- Condition list asking for energy at least 7. -/
def exConds3 : List Cond :=
  [{ tagName := "energy", value := 7, operator := ">=" }]

/-- An empty store with no schema yet, for the idempotence witness. -/
def exDb6 : DB :=
  { schemaExists := false, songs := [], tags := [], songTags := [], playEvents := [], feedback := [] }

/-- A fresh path for the idempotence witness. -/
def exPathNew : String := "new.mp3"

/-- A fresh tag name for the idempotence witness. -/
def exTagNew : String := "mood"

/-
Shared small lemmas.
-/

theorem connect_songs (db : DB) : (connect db).songs = db.songs := rfl

theorem connect_tags (db : DB) : (connect db).tags = db.tags := rfl

theorem connect_songTags (db : DB) : (connect db).songTags = db.songTags := rfl

theorem connect_playEvents (db : DB) : (connect db).playEvents = db.playEvents := rfl

theorem connect_feedback (db : DB) : (connect db).feedback = db.feedback := rfl

theorem connect_schemaExists (db : DB) : (connect db).schemaExists = true := rfl

theorem connect_eq_self (db : DB) (h : db.schemaExists = true) : connect db = db := by
  obtain ⟨se, s, t, st, pe, fb⟩ := db
  have h2 : se = true := h
  subst h2
  rfl

theorem filter_ne_self {α : Type} (l : List α) (p : α → Bool) (x : α)
    (hx : x ∈ l) (hpx : p x = false) : l.filter p ≠ l := by
  intro h
  have hxf : x ∈ l.filter p := by rw [h]; exact hx
  have h2 := (List.mem_filter.mp hxf).2
  rw [hpx] at h2
  exact Bool.false_ne_true h2

/-- C1: the claim that remove_song removes every SongTag, PlayEvent and
Feedback row referencing the removed song is violated by the code: the
feedback DELETE of db.rs runs AFTER the play_events DELETE, and its
subselect (SELECT id FROM play_events WHERE song_id = ...) then matches
nothing, so Feedback rows reachable through the song's play events
survive.  At the failing input exDb1 the Song, SongTag and PlayEvent rows
are deleted but the Feedback row referencing the song's former play event
remains, contradicting the claim, the spec's prescribed dependency order,
and the comment in the code that announces the feedback deletion. -/
theorem c1_remove_song_cascade_misses_feedback :
    remove_song exDb1 exPathA =
      (Except.ok (), { exDb1 with songs := [], songTags := [], playEvents := [] }) ∧
    (remove_song exDb1 exPathA).2.feedback =
      [{ id := 1, playEventId := 1, tagId := 1, feedback := 1 }] ∧
    exDb1.playEvents = [{ id := 1, songId := 1, contextId := 1 }] :=
  ⟨rfl, rfl, rfl⟩

/-- C2 counterexample: the claim that a cascading delete is atomic, i.e.
that no store state with only part of the delete chain applied is
observable, fails at exDb1: the autocommitted statements of remove_song
pass through a state that differs from both the initial and the final
store. -/
theorem c2_not_atomic_counterexample :
    ¬ (∀ d ∈ remove_song_states exDb1 exPathA,
        d = connect exDb1 ∨ d = (remove_song exDb1 exPathA).2) := by
  decide

/-- C2 amended: remove_song and remove_tag issue their DELETE statements
as separate autocommitted statements with no enclosing transaction (only
the schema batch in connect is wrapped in one), so when the statement
chain stops partway the store is observable in a state in which only part
of the cascading delete has been applied: whenever the removed song (or
tag) exists and has a song_tags row, the state after the first DELETE
differs from both the initial and the final store. -/
theorem c2_amended_midchain_state_observable (db : DB) (p n : String) (s : SongRow) (tg : TagRow)
    (hs : db.songs.find? (fun r => r.path == p) = some s)
    (hst : ∃ st ∈ db.songTags, st.songId = s.id)
    (ht : db.tags.find? (fun r => r.name == n) = some tg)
    (htt : ∃ st ∈ db.songTags, st.tagId = tg.id) :
    (∃ d ∈ remove_song_states db p, d ≠ connect db ∧ d ≠ (remove_song db p).2) ∧
    (∃ d ∈ remove_tag_states db n, d ≠ connect db ∧ d ≠ (remove_tag db n).2) := by
  constructor
  · refine ⟨delSongTagsBySong s.id (connect db), ?_, ?_, ?_⟩
    · simp only [remove_song_states, connect_songs, hs]
      simp
    · intro h
      have hft : db.songTags.filter (fun st => !(st.songId == s.id)) = db.songTags :=
        congrArg DB.songTags h
      obtain ⟨st0, hmem, hsid⟩ := hst
      exact filter_ne_self db.songTags _ st0 hmem (by simp [hsid]) hft
    · intro h
      have hrem : (remove_song db p).2 =
          delSongRow s.id (delFeedbackBySongPlayEvents s.id
            (delPlayEventsBySong s.id (delSongTagsBySong s.id (connect db)))) := by
        simp only [remove_song, connect_songs, hs]
      have h' : delSongTagsBySong s.id (connect db) =
          delSongRow s.id (delFeedbackBySongPlayEvents s.id
            (delPlayEventsBySong s.id (delSongTagsBySong s.id (connect db)))) := by
        rw [← hrem]; exact h
      have hsongs : db.songs = db.songs.filter (fun r => !(r.id == s.id)) :=
        congrArg DB.songs h'
      have hsmem : s ∈ db.songs := List.mem_of_find?_eq_some hs
      have hsf : s ∈ db.songs.filter (fun r => !(r.id == s.id)) := by
        rw [← hsongs]; exact hsmem
      have h2 := (List.mem_filter.mp hsf).2
      simp at h2
  · refine ⟨delSongTagsByTag tg.id (connect db), ?_, ?_, ?_⟩
    · simp only [remove_tag_states, connect_tags, ht]
      simp
    · intro h
      have hft : db.songTags.filter (fun st => !(st.tagId == tg.id)) = db.songTags :=
        congrArg DB.songTags h
      obtain ⟨st0, hmem, htid⟩ := htt
      exact filter_ne_self db.songTags _ st0 hmem (by simp [htid]) hft
    · intro h
      have hrem : (remove_tag db n).2 =
          delTagRow tg.id (delFeedbackByTag tg.id (delSongTagsByTag tg.id (connect db))) := by
        simp only [remove_tag, connect_tags, ht]
      have h' : delSongTagsByTag tg.id (connect db) =
          delTagRow tg.id (delFeedbackByTag tg.id (delSongTagsByTag tg.id (connect db))) := by
        rw [← hrem]; exact h
      have htags : db.tags = db.tags.filter (fun r => !(r.id == tg.id)) :=
        congrArg DB.tags h'
      have htmem : tg ∈ db.tags := List.mem_of_find?_eq_some ht
      have htf : tg ∈ db.tags.filter (fun r => !(r.id == tg.id)) := by
        rw [← htags]; exact htmem
      have h2 := (List.mem_filter.mp htf).2
      simp at h2

/-- Witness for the amended C2 at the concrete store exDb1. -/
theorem c2_amended_witness :
    exDb1.songs.find? (fun r => r.path == exPathA) = some exSongRowA ∧
    (∃ st ∈ exDb1.songTags, st.songId = exSongRowA.id) ∧
    exDb1.tags.find? (fun r => r.name == exTagT) = some exTagRowT ∧
    (∃ st ∈ exDb1.songTags, st.tagId = exTagRowT.id) ∧
    (∃ d ∈ remove_song_states exDb1 exPathA,
      d ≠ connect exDb1 ∧ d ≠ (remove_song exDb1 exPathA).2) ∧
    (∃ d ∈ remove_tag_states exDb1 exTagT,
      d ≠ connect exDb1 ∧ d ≠ (remove_tag exDb1 exTagT).2) := by
  have h := c2_amended_midchain_state_observable exDb1 exPathA exTagT exSongRowA exTagRowT
    rfl (by decide) rfl (by decide)
  exact ⟨rfl, by decide, rfl, by decide, h.1, h.2⟩

/-- C8: the storage layer itself enforces the SongTag value bound: with
the song and tag both present, tag_song with value 10 fails with a
constraint violation (never clamping) and leaves every table of the store
as it was, while values 0 and 9 succeed. -/
theorem c8_value_bound_enforced (db : DB) (p t : String) (s : SongRow) (tg : TagRow)
    (hs : db.songs.find? (fun r => r.path == p) = some s)
    (ht : db.tags.find? (fun r => r.name == t) = some tg) :
    tag_song db p t 10 = (Except.error DbErr.constraintViolation, connect db) ∧
    (tag_song db p t 0).1 = Except.ok () ∧
    (tag_song db p t 9).1 = Except.ok () ∧
    (connect db).songs = db.songs ∧ (connect db).tags = db.tags ∧
    (connect db).songTags = db.songTags ∧ (connect db).playEvents = db.playEvents ∧
    (connect db).feedback = db.feedback := by
  refine ⟨?_, ?_, ?_, rfl, rfl, rfl, rfl, rfl⟩
  · simp [tag_song, connect_songs, connect_tags, hs, ht]
  · simp only [tag_song, connect_songs, connect_tags, hs, ht]
    split
    · split <;> rfl
    · next hlt => exact absurd (Nat.zero_le 9) hlt
  · simp only [tag_song, connect_songs, connect_tags, hs, ht]
    split
    · split <;> rfl
    · next hlt => exact absurd (Nat.le_refl 9) hlt

/-- Witness for C8 at the concrete store exDb1. -/
theorem c8_witness :
    exDb1.songs.find? (fun r => r.path == exPathA) = some exSongRowA ∧
    exDb1.tags.find? (fun r => r.name == exTagT) = some exTagRowT ∧
    tag_song exDb1 exPathA exTagT 10 = (Except.error DbErr.constraintViolation, connect exDb1) ∧
    (tag_song exDb1 exPathA exTagT 0).1 = Except.ok () ∧
    (tag_song exDb1 exPathA exTagT 9).1 = Except.ok () := by
  have h := c8_value_bound_enforced exDb1 exPathA exTagT exSongRowA exTagRowT rfl rfl
  exact ⟨rfl, rfl, h.1, h.2.1, h.2.2.1⟩

/-- C10: query_songs is read-only: whenever the schema already exists, the
store after the call equals the store before it, for every condition list,
whether the call returns rows or an invalid-operator error. -/
theorem c10_query_songs_read_only (db : DB) (conds : List Cond)
    (h : db.schemaExists = true) :
    (query_songs db conds).2 = db := by
  have hc : connect db = db := connect_eq_self db h
  unfold query_songs
  cases conds with
  | nil => rfl
  | cons c0 cs =>
    cases hf : (c0 :: cs).find? (fun cd => !(validOperators.contains cd.operator)) with
    | none => simp [hf, hc]
    | some cd => simp [hf, hc]

/-- Witness for C10 at the concrete store exDbA. -/
theorem c10_witness :
    exDbA.schemaExists = true ∧ (query_songs exDbA exCondsRange).2 = exDbA :=
  ⟨rfl, c10_query_songs_read_only exDbA exCondsRange rfl⟩

/-
Facts about the parser loop shared by the parsing claims.
-/

theorem tryOp_eq_none (cond op : List Char) (h : strFind cond op = none) :
    tryOp cond op = none := by
  simp [tryOp, h]

theorem tryOp_eq_some (cond op : List Char) (pos : Nat) (h : strFind cond op = some pos) :
    tryOp cond op = some (processAt cond op pos) := by
  simp [tryOp, h]

theorem processAt_ok (cond op : List Char) (pos : Nat) (tag : List Char) (v : Nat)
    (op2 : List Char) (h : processAt cond op pos = Except.ok (tag, v, op2)) : op2 = op := by
  simp only [processAt] at h
  split at h
  · exact absurd h (by simp)
  · split at h
    · split at h
      · simp only [Except.ok.injEq, Prod.mk.injEq] at h
        exact h.2.2.symm
      · exact absurd h (by simp)
    · exact absurd h (by simp)

theorem parseLoop_first (cond : List Char) :
    ∀ (ops : List (List Char)) (op : List Char),
      ops.find? (fun o => (strFind cond o).isSome) = some op →
      ∃ pos, strFind cond op = some pos ∧ parseLoop cond ops = processAt cond op pos := by
  intro ops
  induction ops with
  | nil => intro op h; simp at h
  | cons o rest ih =>
    intro op h
    cases hf : strFind cond o with
    | some pos =>
      have hpos : ((fun o => (strFind cond o).isSome) o) = true := by simp [hf]
      rw [List.find?_cons_of_pos rest hpos] at h
      injection h with h
      subst h
      exact ⟨pos, hf, by simp [parseLoop, tryOp_eq_some cond o pos hf]⟩
    | none =>
      have hneg : ¬ (((fun o => (strFind cond o).isSome) o) = true) := by simp [hf]
      rw [List.find?_cons_of_neg rest hneg] at h
      obtain ⟨pos, h1, h2⟩ := ih op h
      exact ⟨pos, h1, by simp [parseLoop, tryOp_eq_none cond o hf, h2]⟩

theorem parseLoop_ok_op (cond : List Char) :
    ∀ (ops : List (List Char)) (tag : List Char) (v : Nat) (op : List Char),
      parseLoop cond ops = Except.ok (tag, v, op) →
      ops.find? (fun o => (strFind cond o).isSome) = some op := by
  intro ops
  induction ops with
  | nil => intro tag v op h; simp [parseLoop] at h
  | cons o rest ih =>
    intro tag v op h
    cases hf : strFind cond o with
    | some pos =>
      have hop : op = o := processAt_ok cond o pos tag v op
        (by simpa [parseLoop, tryOp_eq_some cond o pos hf] using h)
      subst hop
      exact List.find?_cons_of_pos rest (by simp [hf])
    | none =>
      have h' : parseLoop cond rest = Except.ok (tag, v, op) := by
        simpa [parseLoop, tryOp_eq_none cond o hf] using h
      rw [List.find?_cons_of_neg rest (by simp [hf])]
      exact ih tag v op h'

/-- C5: parse_tag_condition selects its operator by scanning the priority
order GE, LE, NE, GT, LT, EQ and committing to the first pattern that
occurs anywhere in the condition: when that first-occurring pattern is op,
the whole parse is the processing of the condition split at the first
occurrence of op, every successful parse reports exactly op, and the
concrete condition x GE 5 parses to tag x, operator GE, value 5 (so it is
neither parsed with tag x-GT and operator EQ nor with operator GT). -/
theorem c5_operator_priority (cond op : List Char)
    (h : operators.find? (fun o => (strFind cond o).isSome) = some op) :
    (∃ pos, strFind cond op = some pos ∧ parse_tag_condition cond = processAt cond op pos) ∧
    (∀ tag v op2, parse_tag_condition cond = Except.ok (tag, v, op2) → op2 = op) ∧
    parse_tag_condition (['x', '>', '=', '5']) = Except.ok (['x'], 5, ['>', '=']) := by
  refine ⟨parseLoop_first cond operators op h, ?_, rfl⟩
  intro tag v op2 hok
  have hfind := parseLoop_ok_op cond operators tag v op2 hok
  rw [h] at hfind
  injection hfind with h2
  exact h2.symm

/-- Witness for C5 at the concrete condition string x GE 5. -/
theorem c5_witness :
    operators.find? (fun o => (strFind (['x', '>', '=', '5']) o).isSome) = some (['>', '=']) ∧
    parse_tag_condition (['x', '>', '=', '5']) = Except.ok (['x'], 5, ['>', '=']) := by
  have h := c5_operator_priority (['x', '>', '=', '5']) (['>', '=']) rfl
  exact ⟨rfl, h.2.2⟩

/-- C9 counterexample: the claim sends every out-of-range integer,
including negative integers and integers of 256 or more, to
ValueOutOfRange; but Rust u8 parsing rejects those strings outright, so
cli.rs reports NonNumericValue for the conditions x EQ 256 and x EQ -1. -/
theorem c9_errors_counterexample :
    parse_tag_condition (['x', '=', '2', '5', '6']) = Except.error ParseErr.nonNumericValue ∧
    parse_tag_condition (['x', '=', '-', '1']) = Except.error ParseErr.nonNumericValue ∧
    ParseErr.nonNumericValue ≠ ParseErr.valueOutOfRange :=
  ⟨rfl, rfl, by decide⟩

/-- C9 amended: when an operator is matched and the tag name is non-empty,
value text that parses as a u8 (0 to 255) is accepted for values up to 9
and rejected with ValueOutOfRange for 10 to 255, while value text that
does not parse as a u8 at all (non-numeric text, negative integers,
integers of 256 or more) is rejected with NonNumericValue; parse failures
are always typed errors, never silent defaults. -/
theorem c9_amended_value_error_mapping (cond op : List Char) (pos : Nat)
    (h1 : operators.find? (fun o => (strFind cond o).isSome) = some op)
    (h2 : strFind cond op = some pos)
    (h3 : (trim (cond.take pos)).isEmpty = false) :
    (∀ n, parseU8 (trim (cond.drop (pos + op.length))) = some n →
      ((n ≤ 9 → parse_tag_condition cond = Except.ok (trim (cond.take pos), n, op)) ∧
       (9 < n → parse_tag_condition cond = Except.error ParseErr.valueOutOfRange))) ∧
    (parseU8 (trim (cond.drop (pos + op.length))) = none →
      parse_tag_condition cond = Except.error ParseErr.nonNumericValue) := by
  obtain ⟨pos', hf', heq⟩ := parseLoop_first cond operators op h1
  rw [h2] at hf'
  injection hf' with hpp
  subst hpp
  have hpt : parse_tag_condition cond = processAt cond op pos := heq
  constructor
  · intro m hm
    constructor
    · intro hle
      rw [hpt]
      simp [processAt, h3, hm, hle]
    · intro hgt
      have hnle : ¬ (m ≤ 9) := by omega
      rw [hpt]
      simp [processAt, h3, hm, hnle]
  · intro hm
    rw [hpt]
    simp [processAt, h3, hm]

/-- Witness for the amended C9 at the concrete condition string x EQ 12. -/
theorem c9_amended_witness :
    operators.find? (fun o => (strFind (['x', '=', '1', '2']) o).isSome) = some (['=']) ∧
    strFind (['x', '=', '1', '2']) (['=']) = some 1 ∧
    (trim ((['x', '=', '1', '2']).take 1)).isEmpty = false ∧
    parse_tag_condition (['x', '=', '1', '2']) = Except.error ParseErr.valueOutOfRange := by
  have h := c9_amended_value_error_mapping (['x', '=', '1', '2']) (['=']) 1 rfl rfl rfl
  refine ⟨rfl, rfl, rfl, ?_⟩
  exact (h.1 12 rfl).2 (by omega)

/-
Counting helpers for the uniqueness arguments of the idempotence and
upsert claims.
-/

theorem connect_connect (db : DB) : connect (connect db) = connect db := rfl

theorem songs_countP_le_one (l : List SongRow) (p : String)
    (h : (l.map SongRow.path).Nodup) : l.countP (fun r => r.path == p) ≤ 1 := by
  induction l with
  | nil => simp
  | cons x xs ih =>
    rw [List.map_cons, List.nodup_cons] at h
    rw [List.countP_cons]
    cases hx : (x.path == p)
    · simpa [hx] using ih h.2
    · have hxp : x.path = p := by simpa using hx
      have h0 : xs.countP (fun r => r.path == p) = 0 := by
        rw [List.countP_eq_zero]
        intro r hr hpr
        have hrp : r.path = p := by simpa using hpr
        exact h.1 (by rw [hxp, ← hrp]; exact List.mem_map_of_mem SongRow.path hr)
      simp [hx, h0]

theorem tags_countP_le_one (l : List TagRow) (n : String)
    (h : (l.map TagRow.name).Nodup) : l.countP (fun r => r.name == n) ≤ 1 := by
  induction l with
  | nil => simp
  | cons x xs ih =>
    rw [List.map_cons, List.nodup_cons] at h
    rw [List.countP_cons]
    cases hx : (x.name == n)
    · simpa [hx] using ih h.2
    · have hxn : x.name = n := by simpa using hx
      have h0 : xs.countP (fun r => r.name == n) = 0 := by
        rw [List.countP_eq_zero]
        intro r hr hpr
        have hrn : r.name = n := by simpa using hpr
        exact h.1 (by rw [hxn, ← hrn]; exact List.mem_map_of_mem TagRow.name hr)
      simp [hx, h0]

theorem st_countP_le_one (l : List SongTagRow) (sid tid : Nat)
    (h : (l.map (fun st => (st.songId, st.tagId))).Nodup) :
    l.countP (matchKey sid tid) ≤ 1 := by
  induction l with
  | nil => simp
  | cons x xs ih =>
    rw [List.map_cons, List.nodup_cons] at h
    rw [List.countP_cons]
    cases hx : matchKey sid tid x
    · simpa [hx] using ih h.2
    · have hxk : x.songId = sid ∧ x.tagId = tid := by simpa [matchKey] using hx
      have h0 : xs.countP (matchKey sid tid) = 0 := by
        rw [List.countP_eq_zero]
        intro r hr hpr
        have hrk : r.songId = sid ∧ r.tagId = tid := by simpa [matchKey] using hpr
        have hmem : (x.songId, x.tagId) ∈ xs.map (fun st => (st.songId, st.tagId)) := by
          rw [hxk.1, hxk.2, ← hrk.1, ← hrk.2]
          exact List.mem_map_of_mem _ hr
        exact h.1 hmem
      simp [hx, h0]

theorem add_song_existing (db : DB) (p : String) (hse : db.schemaExists = true)
    (h : db.songs.any (fun r => r.path == p) = true) :
    add_song db p = (Except.ok (), db) := by
  have hc := connect_eq_self db hse
  simp [add_song, connect_songs, h, hc]

theorem add_tag_existing (db : DB) (n : String) (hse : db.schemaExists = true)
    (h : db.tags.any (fun r => r.name == n) = true) :
    add_tag db n = (Except.ok (), db) := by
  have hc := connect_eq_self db hse
  simp [add_tag, connect_tags, h, hc]

/-- C6: add_song and add_tag are idempotent: both calls succeed, the
second call with the same argument does not change the store, and after
the first call exactly one Song row with the given path (one Tag row with
the given name) exists. -/
theorem c6_add_idempotent (db : DB) (p n : String)
    (hp : (db.songs.map SongRow.path).Nodup) (hn : (db.tags.map TagRow.name).Nodup) :
    (add_song db p).1 = Except.ok () ∧
    (add_song (add_song db p).2 p).1 = Except.ok () ∧
    add_song (add_song db p).2 p = add_song db p ∧
    ((add_song db p).2.songs.countP (fun r => r.path == p)) = 1 ∧
    (add_tag db n).1 = Except.ok () ∧
    (add_tag (add_tag db n).2 n).1 = Except.ok () ∧
    add_tag (add_tag db n).2 n = add_tag db n ∧
    ((add_tag db n).2.tags.countP (fun r => r.name == n)) = 1 := by
  have hsong : (add_song db p).1 = Except.ok () ∧
      (add_song (add_song db p).2 p).1 = Except.ok () ∧
      add_song (add_song db p).2 p = add_song db p ∧
      ((add_song db p).2.songs.countP (fun r => r.path == p)) = 1 := by
    cases hany : db.songs.any (fun r => r.path == p)
    · have e1 : add_song db p =
          (Except.ok (), { connect db with
            songs := db.songs ++ [({ id := nextId (db.songs.map SongRow.id), path := p } : SongRow)] }) := by
        simp [add_song, connect_songs, hany]
      have e2 : add_song (add_song db p).2 p = add_song db p := by
        rw [e1]
        exact add_song_existing _ p rfl (by simp)
      have h0 : db.songs.countP (fun r => r.path == p) = 0 := by
        rw [List.countP_eq_zero]
        exact List.any_eq_false.mp hany
      refine ⟨by rw [e1], by rw [e2, e1], e2, ?_⟩
      rw [e1]
      show (db.songs ++ [({ id := nextId (db.songs.map SongRow.id), path := p } : SongRow)]).countP
        (fun r => r.path == p) = 1
      simp [List.countP_append, h0, List.countP_cons]
    · have e1 : add_song db p = (Except.ok (), connect db) := by
        simp [add_song, connect_songs, hany]
      have e2 : add_song (add_song db p).2 p = add_song db p := by
        rw [e1]
        exact add_song_existing (connect db) p rfl hany
      have hpos : 0 < db.songs.countP (fun r => r.path == p) := by
        rw [List.countP_pos_iff]
        exact List.any_eq_true.mp hany
      have hle := songs_countP_le_one db.songs p hp
      refine ⟨by rw [e1], by rw [e2, e1], e2, ?_⟩
      rw [e1]
      show db.songs.countP (fun r => r.path == p) = 1
      omega
  have htag : (add_tag db n).1 = Except.ok () ∧
      (add_tag (add_tag db n).2 n).1 = Except.ok () ∧
      add_tag (add_tag db n).2 n = add_tag db n ∧
      ((add_tag db n).2.tags.countP (fun r => r.name == n)) = 1 := by
    cases hany : db.tags.any (fun r => r.name == n)
    · have e1 : add_tag db n =
          (Except.ok (), { connect db with
            tags := db.tags ++ [({ id := nextId (db.tags.map TagRow.id), name := n } : TagRow)] }) := by
        simp [add_tag, connect_tags, hany]
      have e2 : add_tag (add_tag db n).2 n = add_tag db n := by
        rw [e1]
        exact add_tag_existing _ n rfl (by simp)
      have h0 : db.tags.countP (fun r => r.name == n) = 0 := by
        rw [List.countP_eq_zero]
        exact List.any_eq_false.mp hany
      refine ⟨by rw [e1], by rw [e2, e1], e2, ?_⟩
      rw [e1]
      show (db.tags ++ [({ id := nextId (db.tags.map TagRow.id), name := n } : TagRow)]).countP
        (fun r => r.name == n) = 1
      simp [List.countP_append, h0, List.countP_cons]
    · have e1 : add_tag db n = (Except.ok (), connect db) := by
        simp [add_tag, connect_tags, hany]
      have e2 : add_tag (add_tag db n).2 n = add_tag db n := by
        rw [e1]
        exact add_tag_existing (connect db) n rfl hany
      have hpos : 0 < db.tags.countP (fun r => r.name == n) := by
        rw [List.countP_pos_iff]
        exact List.any_eq_true.mp hany
      have hle := tags_countP_le_one db.tags n hn
      refine ⟨by rw [e1], by rw [e2, e1], e2, ?_⟩
      rw [e1]
      show db.tags.countP (fun r => r.name == n) = 1
      omega
  exact ⟨hsong.1, hsong.2.1, hsong.2.2.1, hsong.2.2.2, htag.1, htag.2.1, htag.2.2.1, htag.2.2.2⟩

/-- Witness for C6 at the empty store. -/
theorem c6_witness :
    (exDb6.songs.map SongRow.path).Nodup ∧ (exDb6.tags.map TagRow.name).Nodup ∧
    (add_song exDb6 exPathNew).1 = Except.ok () ∧
    add_song (add_song exDb6 exPathNew).2 exPathNew = add_song exDb6 exPathNew ∧
    ((add_song exDb6 exPathNew).2.songs.countP (fun r => r.path == exPathNew)) = 1 ∧
    (add_tag exDb6 exTagNew).1 = Except.ok () ∧
    add_tag (add_tag exDb6 exTagNew).2 exTagNew = add_tag exDb6 exTagNew ∧
    ((add_tag exDb6 exTagNew).2.tags.countP (fun r => r.name == exTagNew)) = 1 := by
  have h := c6_add_idempotent exDb6 exPathNew exTagNew (by decide) (by decide)
  exact ⟨by decide, by decide, h.1, h.2.2.1, h.2.2.2.1, h.2.2.2.2.1, h.2.2.2.2.2.2.1,
    h.2.2.2.2.2.2.2⟩

/-
Helpers about the ON CONFLICT DO UPDATE map of tag_song.
-/

theorem matchKey_upd (sid tid v : Nat) (st : SongTagRow) :
    matchKey sid tid (if matchKey sid tid st then { st with value := v } else st) =
      matchKey sid tid st := by
  cases h : matchKey sid tid st
  · simp [h]
  · have e : matchKey sid tid ({ st with value := v }) = matchKey sid tid st := rfl
    simp [h, e]

theorem countP_map_upd (sid tid v : Nat) (l : List SongTagRow) :
    (l.map (fun st => if matchKey sid tid st then { st with value := v } else st)).countP
      (matchKey sid tid) = l.countP (matchKey sid tid) := by
  induction l with
  | nil => rfl
  | cons x xs ih =>
    simp only [List.map_cons, List.countP_cons, ih, matchKey_upd]

theorem value_after_upd (sid tid v : Nat) (l : List SongTagRow) :
    ∀ st ∈ l.map (fun st => if matchKey sid tid st then { st with value := v } else st),
      matchKey sid tid st = true → st.value = v := by
  intro st hst hk
  rw [List.mem_map] at hst
  obtain ⟨y, hy, hEq⟩ := hst
  cases hky : matchKey sid tid y
  · rw [hky] at hEq
    simp only [Bool.false_eq_true, if_false] at hEq
    subst hEq
    rw [hky] at hk
    exact absurd hk (by simp)
  · rw [hky] at hEq
    simp only [if_true] at hEq
    rw [← hEq]

/-- C7: tag_song upserts: with the song and tag both present, writing
value 4 and then value 7 for the same (path, tag) pair succeeds both
times and leaves exactly one song_tags row for the pair, whose value is
the second write, 7. -/
theorem c7_tag_song_upsert (db : DB) (p t : String) (s : SongRow) (tg : TagRow)
    (hs : db.songs.find? (fun r => r.path == p) = some s)
    (ht : db.tags.find? (fun r => r.name == t) = some tg)
    (hk : (db.songTags.map (fun st => (st.songId, st.tagId))).Nodup) :
    (tag_song db p t 4).1 = Except.ok () ∧
    (tag_song (tag_song db p t 4).2 p t 7).1 = Except.ok () ∧
    ((tag_song (tag_song db p t 4).2 p t 7).2).songTags.countP (matchKey s.id tg.id) = 1 ∧
    ∀ st ∈ ((tag_song (tag_song db p t 4).2 p t 7).2).songTags,
      matchKey s.id tg.id st = true → st.value = 7 := by
  have hle := st_countP_le_one db.songTags s.id tg.id hk
  cases hany : db.songTags.any (matchKey s.id tg.id)
  · have e1 : tag_song db p t 4 =
        (Except.ok (), { connect db with
          songTags := db.songTags ++ [({ songId := s.id, tagId := tg.id, value := 4 } : SongTagRow)] }) := by
      simp [tag_song, connect_songs, connect_tags, connect_songTags, hs, ht, hany]
    have h0 : db.songTags.countP (matchKey s.id tg.id) = 0 := by
      rw [List.countP_eq_zero]
      exact List.any_eq_false.mp hany
    have hany1 : (db.songTags ++ [({ songId := s.id, tagId := tg.id, value := 4 } : SongTagRow)]).any
        (matchKey s.id tg.id) = true := by
      simp [matchKey]
    have e2 : tag_song (tag_song db p t 4).2 p t 7 =
        (Except.ok (), { connect db with
          songTags := (db.songTags ++ [({ songId := s.id, tagId := tg.id, value := 4 } : SongTagRow)]).map
            (fun st => if matchKey s.id tg.id st then { st with value := 7 } else st) }) := by
      rw [e1]
      simp [tag_song, connect_songs, connect_tags, connect_songTags, connect_playEvents,
        connect_feedback, connect_schemaExists, hs, ht, hany1]
    refine ⟨by rw [e1], by rw [e2], ?_, ?_⟩
    · rw [e2]
      show ((db.songTags ++ [({ songId := s.id, tagId := tg.id, value := 4 } : SongTagRow)]).map
        (fun st => if matchKey s.id tg.id st then { st with value := 7 } else st)).countP
          (matchKey s.id tg.id) = 1
      rw [countP_map_upd, List.countP_append, h0]
      simp [List.countP_cons, matchKey]
    · rw [e2]
      exact value_after_upd s.id tg.id 7 _
  · have e1 : tag_song db p t 4 =
        (Except.ok (), { connect db with
          songTags := db.songTags.map
            (fun st => if matchKey s.id tg.id st then { st with value := 4 } else st) }) := by
      simp [tag_song, connect_songs, connect_tags, connect_songTags, hs, ht, hany]
    have hpos : 0 < db.songTags.countP (matchKey s.id tg.id) := by
      rw [List.countP_pos_iff]
      exact List.any_eq_true.mp hany
    have hany1 : (db.songTags.map
        (fun st => if matchKey s.id tg.id st then { st with value := 4 } else st)).any
          (matchKey s.id tg.id) = true := by
      rw [List.any_eq_true]
      refine List.countP_pos_iff.mp ?_
      rw [countP_map_upd]
      exact hpos
    have e2 : tag_song (tag_song db p t 4).2 p t 7 =
        (Except.ok (), { connect db with
          songTags := (db.songTags.map
            (fun st => if matchKey s.id tg.id st then { st with value := 4 } else st)).map
              (fun st => if matchKey s.id tg.id st then { st with value := 7 } else st) }) := by
      rw [e1]
      simp [tag_song, connect_songs, connect_tags, connect_songTags, connect_playEvents,
        connect_feedback, connect_schemaExists, hs, ht, hany1]
    refine ⟨by rw [e1], by rw [e2], ?_, ?_⟩
    · rw [e2]
      show ((db.songTags.map
        (fun st => if matchKey s.id tg.id st then { st with value := 4 } else st)).map
          (fun st => if matchKey s.id tg.id st then { st with value := 7 } else st)).countP
            (matchKey s.id tg.id) = 1
      rw [countP_map_upd, countP_map_upd]
      omega
    · rw [e2]
      exact value_after_upd s.id tg.id 7 _

/-- Witness for C7 at the concrete store exDb1. -/
theorem c7_witness :
    exDb1.songs.find? (fun r => r.path == exPathA) = some exSongRowA ∧
    exDb1.tags.find? (fun r => r.name == exTagT) = some exTagRowT ∧
    (exDb1.songTags.map (fun st => (st.songId, st.tagId))).Nodup ∧
    (tag_song exDb1 exPathA exTagT 4).1 = Except.ok () ∧
    (tag_song (tag_song exDb1 exPathA exTagT 4).2 exPathA exTagT 7).1 = Except.ok () ∧
    ((tag_song (tag_song exDb1 exPathA exTagT 4).2 exPathA exTagT 7).2).songTags.countP
      (matchKey exSongRowA.id exTagRowT.id) = 1 ∧
    ∀ st ∈ ((tag_song (tag_song exDb1 exPathA exTagT 4).2 exPathA exTagT 7).2).songTags,
      matchKey exSongRowA.id exTagRowT.id st = true → st.value = 7 := by
  have h := c7_tag_song_upsert exDb1 exPathA exTagT exSongRowA exTagRowT rfl rfl (by decide)
  exact ⟨rfl, rfl, by decide, h.1, h.2.1, h.2.2.1, h.2.2.2⟩

/-
Join semantics of the compiled query of query_songs.
-/

theorem songHasMatchingTag_connect (db : DB) (sid : Nat) (c : Cond) :
    songHasMatchingTag (connect db) sid c = songHasMatchingTag db sid c := rfl

theorem mem_onPairs (db : DB) (sid : Nat) (st : SongTagRow) (t : TagRow) :
    (st, t) ∈ onPairs db sid ↔
      st ∈ db.songTags ∧ st.songId = sid ∧ t ∈ db.tags ∧ st.tagId = t.id := by
  simp only [onPairs, List.mem_flatMap, List.mem_filter, List.mem_map, beq_iff_eq,
    Prod.mk.injEq]
  constructor
  · rintro ⟨a, ⟨ha, hsid⟩, b, ⟨hb, htid⟩, h1, h2⟩
    subst h1
    subst h2
    exact ⟨ha, hsid, hb, htid⟩
  · rintro ⟨hst, hsid, ht, htid⟩
    exact ⟨st, ⟨hst, hsid⟩, t, ⟨ht, htid⟩, rfl, rfl⟩

theorem exists_tuple_iff (db : DB) (sid : Nat) (conds : List Cond) :
    (∃ tp ∈ tuplesFor db sid conds, whereSat conds tp = true) ↔
      ∀ c ∈ conds, ∃ pr ∈ onPairs db sid, condSatPair c pr = true := by
  induction conds with
  | nil => simp [tuplesFor, whereSat]
  | cons c cs ih =>
    constructor
    · rintro ⟨tp, htp, hsat⟩
      simp only [tuplesFor, List.mem_flatMap, List.mem_map] at htp
      obtain ⟨pr, hpr, tp', htp', hEq⟩ := htp
      subst hEq
      have hsat' : condSatPair c pr = true ∧ whereSat cs tp' = true := by
        simpa [whereSat, Bool.and_eq_true] using hsat
      intro c' hc'
      rcases List.mem_cons.mp hc' with h | h
      · subst h
        exact ⟨pr, hpr, hsat'.1⟩
      · exact (ih.mp ⟨tp', htp', hsat'.2⟩) c' h
    · intro h
      obtain ⟨pr, hpr, hc⟩ := h c (List.mem_cons_self c cs)
      obtain ⟨tp', htp', hsat'⟩ := ih.mpr (fun c' hc' => h c' (List.mem_cons_of_mem c hc'))
      refine ⟨pr :: tp', ?_, ?_⟩
      · simp only [tuplesFor, List.mem_flatMap, List.mem_map]
        exact ⟨pr, hpr, tp', htp', rfl⟩
      · simp [whereSat, hc, hsat']

theorem mem_rawResult (db : DB) (conds : List Cond) (s : SongRow) :
    s ∈ rawResult db conds ↔
      s ∈ db.songs ∧ ∃ tp ∈ tuplesFor db s.id conds, whereSat conds tp = true := by
  simp only [rawResult, List.mem_flatMap, List.mem_map, List.mem_filter]
  constructor
  · rintro ⟨a, ha, tp, ⟨htp, hsat⟩, hEq⟩
    subst hEq
    exact ⟨ha, tp, htp, hsat⟩
  · rintro ⟨hs, tp, htp, hsat⟩
    exact ⟨s, hs, tp, ⟨htp, hsat⟩, rfl⟩

theorem pair_iff_spec (db : DB) (sid : Nat) (c : Cond) :
    (∃ pr ∈ onPairs db sid, condSatPair c pr = true) ↔ songHasMatchingTag db sid c := by
  constructor
  · rintro ⟨⟨st, t⟩, hpr, hsat⟩
    rw [mem_onPairs] at hpr
    obtain ⟨hst, hsid, ht, htid⟩ := hpr
    have hsat' : t.name = c.tagName ∧ opApply c.operator st.value c.value = true := by
      simpa [condSatPair, Bool.and_eq_true, beq_iff_eq] using hsat
    exact ⟨st, hst, hsid, t, ht, htid, hsat'.1, hsat'.2⟩
  · rintro ⟨st, hst, hsid, t, ht, htid, hname, hop⟩
    refine ⟨(st, t), ?_, ?_⟩
    · rw [mem_onPairs]
      exact ⟨hst, hsid, ht, htid⟩
    · simp [condSatPair, hname, hop]

/-- C3: with every operator drawn from the allow-list, query_songs
returns exactly the songs having, for EVERY condition in the list, a
song_tags row of the condition tag whose value satisfies the comparison;
the result holds each matching song once (ids are not repeated) and is
sorted by path, and the empty condition list yields an empty ok result
with the store untouched. -/
theorem c3_query_songs_semantics (db : DB) (conds : List Cond)
    (hid : (db.songs.map SongRow.id).Nodup)
    (hops : ∀ c ∈ conds, c.operator ∈ validOperators) :
    (conds = [] → query_songs db conds = (Except.ok [], db)) ∧
    ∃ res, (query_songs db conds).1 = Except.ok res ∧
      (conds ≠ [] →
        ∀ s, s ∈ res ↔ s ∈ db.songs ∧ ∀ c ∈ conds, songHasMatchingTag db s.id c) ∧
      List.Sorted pathRel res ∧
      (res.map SongRow.id).Nodup ∧
      (conds = [] → res = []) := by
  cases conds with
  | nil =>
    exact ⟨fun _ => rfl, [], rfl, fun h => absurd rfl h, List.sorted_nil, by simp, fun _ => rfl⟩
  | cons c0 cs =>
    have hfind : (c0 :: cs).find? (fun cd => !decide (cd.operator ∈ validOperators)) = none := by
      rw [List.find?_eq_none]
      intro cd hcd
      simp [hops cd hcd]
    have hq : (query_songs db (c0 :: cs)).1 =
        Except.ok (sortByPath ((rawResult (connect db) (c0 :: cs)).dedup)) := by
      simp [query_songs, hfind]
    have hmem : ∀ s, s ∈ sortByPath ((rawResult (connect db) (c0 :: cs)).dedup) ↔
        s ∈ db.songs ∧ ∀ c ∈ (c0 :: cs), songHasMatchingTag db s.id c := by
      intro s
      unfold sortByPath
      rw [List.mem_insertionSort, List.mem_dedup, mem_rawResult, exists_tuple_iff]
      simp only [pair_iff_spec, songHasMatchingTag_connect, connect_songs]
    have hnd : (sortByPath ((rawResult (connect db) (c0 :: cs)).dedup)).Nodup := by
      unfold sortByPath
      exact (List.perm_insertionSort pathRel _).symm.nodup (List.nodup_dedup _)
    have hsub : ∀ x ∈ sortByPath ((rawResult (connect db) (c0 :: cs)).dedup), x ∈ db.songs :=
      fun x hx => ((hmem x).mp hx).1
    refine ⟨fun h => absurd h (List.cons_ne_nil c0 cs),
      sortByPath ((rawResult (connect db) (c0 :: cs)).dedup), hq, fun _ => hmem,
      List.sorted_insertionSort pathRel _, ?_, fun h => absurd h (List.cons_ne_nil c0 cs)⟩
    exact List.Nodup.map_on
      (fun x hx y hy hxy => List.inj_on_of_nodup_map hid (hsub x hx) (hsub y hy) hxy) hnd

/-- Witness for C3 at the concrete store exDb3. -/
theorem c3_witness :
    (exDb3.songs.map SongRow.id).Nodup ∧
    (∀ c ∈ exConds3, c.operator ∈ validOperators) ∧
    ((exConds3 = [] → query_songs exDb3 exConds3 = (Except.ok [], exDb3)) ∧
     ∃ res, (query_songs exDb3 exConds3).1 = Except.ok res ∧
       (exConds3 ≠ [] →
         ∀ s, s ∈ res ↔ s ∈ exDb3.songs ∧ ∀ c ∈ exConds3, songHasMatchingTag exDb3 s.id c) ∧
       List.Sorted pathRel res ∧
       (res.map SongRow.id).Nodup ∧
       (exConds3 = [] → res = [])) :=
  ⟨by decide, by decide, c3_query_songs_semantics exDb3 exConds3 (by decide) (by decide)⟩

/-- C4: each condition of query_songs contributes its own aliased join
pair that no other condition reuses, so the conjunction over a two-element
condition list is exactly the independent conjunction of the two
per-condition row existences, even for two conditions on the same tag
name; concretely, the range conditions energy at least 3 and energy at
most 7 return the song with energy value 5 and do not return the song
with energy value 8. -/
theorem c4_same_tag_independent_joins :
    (∀ (db : DB) (sid : Nat) (c1 c2 : Cond),
      (∃ tp ∈ tuplesFor db sid [c1, c2], whereSat [c1, c2] tp = true) ↔
        ((∃ pr ∈ onPairs db sid, condSatPair c1 pr = true) ∧
         (∃ pr ∈ onPairs db sid, condSatPair c2 pr = true))) ∧
    (query_songs exDbA exCondsRange).1 = Except.ok [exSongA] ∧
    (query_songs exDbB exCondsRange).1 = Except.ok [] := by
  refine ⟨?_, rfl, rfl⟩
  intro db sid c1 c2
  rw [exists_tuple_iff]
  constructor
  · intro h
    exact ⟨h c1 (by simp), h c2 (by simp)⟩
  · rintro ⟨h1, h2⟩ c hc
    rcases List.mem_cons.mp hc with h | h
    · subst h
      exact h1
    · rcases List.mem_cons.mp h with h' | h'
      · subst h'
        exact h2
      · exact absurd h' (List.not_mem_nil c)

end Mag
